import Mathlib

/-!
Verification of the radar provider/timeline subsystem of the weather-mvp-app
repository: a shallow embedding of the map state reducer
(`app/lib/maps/state.ts`), the crossfade opacity memos (`app/(tabs)/maps.tsx`),
the RainViewer provider adapter and manifest caches
(`app/lib/maps/radar/providers/rainviewer.ts`, `app/lib/maps/radarIem.ts`),
the nearest-radar resolver (`app/lib/maps/resolveNearestRadar.ts`) and the
timeline index helpers (`components/maps/TimelineScrubber.tsx`).

JavaScript number values that the claims exercise are modelled as rationals
(`ℚ`) or integers (`ℤ`); `NaN`/`Infinity` special cases are noted where the
source tests for them.  JavaScript objects with possibly-missing fields are
modelled with `Option` fields, and JavaScript object maps as association
lists in insertion order (spreading `{...m, [k]: v}` replaces an existing
key in place and appends a fresh key at the end).
-/

namespace WeatherMvp

/-! ## Timeline index helpers (components/maps/TimelineScrubber.tsx)

`nextFrameIndex(i, n) = n <= 0 ? 0 : (i + 1) % n` and
`prevFrameIndex(i, n) = n <= 0 ? 0 : (i - 1 + n) % n`, where `%` is the
JavaScript remainder (truncated division), i.e. `Int.tmod`. -/

def nextFrameIndex (i n : Int) : Int :=
  if n ≤ 0 then 0 else (i + 1).tmod n

def prevFrameIndex (i n : Int) : Int :=
  if n ≤ 0 then 0 else (i - 1 + n).tmod n

/-! ## Crossfade opacity memos (app/(tabs)/maps.tsx lines 301-309)

`baseOpacity = fadeUrl ? radarOpacity * (1 - fadeT) : radarOpacity` and
`fadeOpacity = fadeUrl ? radarOpacity * fadeT : 0`. -/

def baseOpacity (radarOpacity : ℚ) (fadeUrl : Option String) (fadeT : ℚ) : ℚ :=
  match fadeUrl with
  | none => radarOpacity
  | some _ => radarOpacity * (1 - fadeT)

def fadeOpacity (radarOpacity : ℚ) (fadeUrl : Option String) (fadeT : ℚ) : ℚ :=
  match fadeUrl with
  | none => 0
  | some _ => radarOpacity * fadeT

/-! ## String helpers (JavaScript `includes`, `startsWith`, `endsWith`,
`slice(0, -1)`), defined over the character list so they evaluate by
kernel reduction. -/

def listStartsWith : List Char → List Char → Bool
  | _, [] => true
  | [], _ :: _ => false
  | a :: as, b :: bs => a == b && listStartsWith as bs

def listHasSub : List Char → List Char → Bool
  | l, pat =>
    if listStartsWith l pat then true
    else
      match l with
      | [] => false
      | _ :: as => listHasSub as pat

def strIncludes (s pat : String) : Bool :=
  listHasSub s.data pat.data

def strStartsWith (s pat : String) : Bool :=
  listStartsWith s.data pat.data

def strEndsWith (s pat : String) : Bool :=
  listStartsWith s.data.reverse pat.data.reverse

def strDropRight1 (s : String) : String :=
  String.mk s.data.dropLast

/-! ## Rational constants

Decimal constants from the source are written as reduced `num/den`
structure literals so that they evaluate by kernel reduction (the `ℚ`
division operator does not); e.g. `q0_9` is the source's `0.9`. -/

def q0_9 : ℚ := ⟨9, 10, by decide, by decide⟩

def q0_55 : ℚ := ⟨11, 20, by decide, by decide⟩

def q0_85 : ℚ := ⟨17, 20, by decide, by decide⟩

def q0_95 : ℚ := ⟨19, 20, by decide, by decide⟩

def q0_5 : ℚ := ⟨1, 2, by decide, by decide⟩

def q0_3 : ℚ := ⟨3, 10, by decide, by decide⟩

/-- 0.621371, the km→mi factor of resolveNearestRadar.ts. -/
def qMiPerKm : ℚ := ⟨621371, 1000000, by decide, by decide⟩

/-- `Math.min` on rationals (ties and NaN aside, the JS semantics). -/
def ratMin (a b : ℚ) : ℚ := if a ≤ b then a else b

/-- `Math.max` on rationals. -/
def ratMax (a b : ℚ) : ℚ := if b ≤ a then a else b

/-! ## Tile template builders

`tileTemplateFor` (app/lib/maps/radar/providers/rainviewer.ts lines 65-78):
appends the fixed suffix only when the path lacks one of the `{z}`, `{x}`,
`{y}` placeholders.  `buildRainViewerTileTemplate` (app/lib/maps/radarIem.ts
lines 161-167): normalizes the slash between host and path and always
appends the suffix. -/

def tileSuffix : String := "/256/\x7bz\x7d/\x7bx\x7d/\x7by\x7d/2/1_1.png"

def zTok : String := "\x7bz\x7d"

def xTok : String := "\x7bx\x7d"

def yTok : String := "\x7by\x7d"

def tileTemplateFor (host path : String) : String :=
  if strIncludes path zTok && strIncludes path xTok && strIncludes path yTok then
    host ++ path
  else
    host ++ path ++ tileSuffix

def buildRainViewerTileTemplate (host path : String) : String :=
  let h := if strEndsWith host "/" then strDropRight1 host else host
  let p := if strStartsWith path "/" then path else "/" ++ path
  h ++ p ++ tileSuffix

/-! ## RainViewer provider adapter (app/lib/maps/radar/providers/rainviewer.ts)

The decoded `maps.json` payload is modelled as an already-parsed structure:
`host` is optional, `radar.past`/`radar.nowcast` default to `[]` via the
source's `?? []`, and each raw entry's `time`/`path` field holds a dynamic
JSON value (`typeof` checks in the source inspect the runtime type). -/

inductive JVal where
  | num (n : Int)
  | str (s : String)
  | nullv
deriving DecidableEq, Repr

structure RawEntry where
  time : JVal
  path : JVal
deriving DecidableEq, Repr

structure RVResponse where
  host : Option String
  past : List RawEntry
  nowcast : List RawEntry
deriving DecidableEq, Repr

/-- The filter in `fetchFrames`:
`typeof p.time === 'number' && typeof p.path === 'string' && p.path.length > 3`. -/
def entryValid (e : RawEntry) : Bool :=
  match e.time, e.path with
  | .num _, .str s => s.length > 3
  | _, _ => false

def timeOf (e : RawEntry) : Int :=
  match e.time with
  | .num n => n
  | _ => 0

def pathOf (e : RawEntry) : String :=
  match e.path with
  | .str s => s
  | _ => ""

/-- `RadarFrame` from `providers/types.ts`: the `iso` field is
`new Date(t * 1000).toISOString()`, a display-only rendering of `t`, and is
omitted from the model. -/
structure RadarFrame where
  t : Int
deriving DecidableEq, Repr

def toFrame (t : Int) : RadarFrame := ⟨t⟩

/-- Stable insertion used to model `Array.prototype.sort` with comparator
`(a, b) => a.time - b.time`: JavaScript's sort is specified to be stable, so
its output is exactly the stable ascending reordering produced here. -/
def insertByTime (e : RawEntry) : List RawEntry → List RawEntry
  | [] => [e]
  | x :: xs => if timeOf x < timeOf e then x :: insertByTime e xs else e :: x :: xs

def sortByTime (l : List RawEntry) : List RawEntry :=
  l.foldr insertByTime []

/-- `fetchFrames` (rainviewer.ts lines 37-61), given the decoded response of
a successful HTTP fetch.  `if (!host) throw` treats both a missing and an
empty host string as falsy. -/
def fetchFrames (includeNowcast : Bool) (maxFrames : Nat) (resp : RVResponse) :
    Except String (List RadarFrame × String × List String) :=
  match resp.host with
  | none => .error "RainViewer maps.json missing host"
  | some host =>
    if host.data.isEmpty then .error "RainViewer maps.json missing host"
    else
      let past := resp.past
      let nowcast := if includeNowcast then resp.nowcast else []
      let combined := sortByTime ((past ++ nowcast).filter entryValid)
      let tail := combined.drop (combined.length - maxFrames)
      .ok (tail.map (fun p => toFrame (timeOf p)), host, tail.map pathOf)

/-- Modelled from the spec: the frame list C4 predicts — "the concatenation
of the response's past and nowcast entries, sorted ascending by time (oldest
to newest), and truncated to at most the most recent N frames" — with no
mention of any entry filtering.  Used only to compare against `fetchFrames`. -/
def claimedFrames (maxFrames : Nat) (resp : RVResponse) : List RadarFrame :=
  let sorted := sortByTime (resp.past ++ resp.nowcast)
  (sorted.drop (sorted.length - maxFrames)).map (fun p => toFrame (timeOf p))

/-- The module-level cache of the provider (`cachedFrames`, `cachedHost`,
`cachedPaths`, `cacheExpiresAt`), passed explicitly. -/
structure RVCacheState where
  cachedFrames : Option (List RadarFrame)
  cachedHost : Option String
  cachedPaths : Option (List String)
  cacheExpiresAt : Int
deriving DecidableEq, Repr

def initialRVCache : RVCacheState := ⟨none, none, none, 0⟩

def rvCachedState (frames : List RadarFrame) (host : String)
    (paths : List String) (expiresAt : Int) : RVCacheState :=
  ⟨some frames, some host, some paths, expiresAt⟩

def optStrTruthy : Option String → Bool
  | some s => !s.data.isEmpty
  | none => false

/-- The guard `cachedFrames && now < cacheExpiresAt && cachedHost &&
cachedPaths` of `getFrames`: a present (possibly empty) array is truthy, a
string is truthy only when non-empty. -/
def rvCacheHit (st : RVCacheState) (now : Int) : Bool :=
  st.cachedFrames.isSome && decide (now < st.cacheExpiresAt)
    && optStrTruthy st.cachedHost && st.cachedPaths.isSome

/-- One call of the provider's `getFrames` (rainviewer.ts lines 80-97),
with the upstream fetch's outcome passed in (`Except.error` = network
failure or non-ok status) and the number of upstream fetches the call
performed returned alongside the result and the updated cache. -/
def getFrames (includeNowcast : Bool) (maxFrames : Nat) (ttlMs : Int)
    (st : RVCacheState) (now : Int) (upstream : Except String RVResponse) :
    Except String (List RadarFrame) × RVCacheState × Nat :=
  if rvCacheHit st now then
    (.ok (st.cachedFrames.getD []), st, 0)
  else
    match upstream with
    | .error e => (.error e, st, 1)
    | .ok resp =>
      match fetchFrames includeNowcast maxFrames resp with
      | .error e => (.error e, st, 1)
      | .ok (frames, host, paths) =>
        (.ok frames, ⟨some frames, some host, some paths, now + ttlMs⟩, 1)

/-! ## radarIem.ts RainViewer maps.json cache (lines 127-143)

`RV_CACHE = { at, data }` with `RV_TTL_MS = 60_000`; the parsed JSON is
stored unconditionally after a successful fetch. -/

structure RVMapsCache where
  atMs : Int
  data : Option RVResponse
deriving DecidableEq, Repr

def initialRVMapsCache : RVMapsCache := ⟨0, none⟩

def rvMapsFetch (st : RVMapsCache) (now : Int)
    (upstream : Except String RVResponse) :
    Except String RVResponse × RVMapsCache × Nat :=
  match upstream with
  | .error e => (.error e, st, 1)
  | .ok d => (.ok d, ⟨now, some d⟩, 1)

/-- One call of `fetchRainViewerMapsJson`: return the cached payload when
`RV_CACHE.data && now - RV_CACHE.at < RV_TTL_MS`, otherwise fetch and store
whatever the fetch parsed. -/
def fetchRainViewerMapsJson (st : RVMapsCache) (now : Int)
    (upstream : Except String RVResponse) :
    Except String RVResponse × RVMapsCache × Nat :=
  match st.data with
  | some d => if now - st.atMs < 60000 then (.ok d, st, 0) else rvMapsFetch st now upstream
  | none => rvMapsFetch st now upstream

/-! ## Nearest radar resolver (app/lib/maps/resolveNearestRadar.ts)

Only the fields the resolver reads are modelled.  The haversine distance and
the bearing are floating-point trigonometric computations; the resolver's
scan is verified for an arbitrary distance function `dist lat lon slat slon`
(of which the haversine distance is one instance), and the `bearingDeg`
field of the result — a pure function of the returned site, irrelevant to
site selection — is omitted.  The static registry `NEXRAD_SITES` is a
generated JSON dataset not present in the repository sources, so it is a
parameter here.  `bestDistanceKm` starts at `Infinity` with a strict `<`
update, which over total rational distances is the `Option` accumulator
below (the first unfiltered site always replaces `none`). -/

structure NexradSite where
  id : String
  lat : ℚ
  lon : ℚ
deriving DecidableEq, Repr

structure NearestRadarResult where
  site : NexradSite
  distanceKm : ℚ
  distanceMi : ℚ
deriving DecidableEq, Repr

def scanStep (dist : ℚ → ℚ → ℚ → ℚ → ℚ) (lat lon : ℚ)
    (filter : Option (NexradSite → Bool))
    (best : Option (NexradSite × ℚ)) (s : NexradSite) : Option (NexradSite × ℚ) :=
  if (match filter with | some f => !(f s) | none => false) then best
  else
    match best with
    | none => some (s, dist lat lon s.lat s.lon)
    | some (_, bd) =>
      if dist lat lon s.lat s.lon < bd then some (s, dist lat lon s.lat s.lon) else best

def resolveNearestRadar (dist : ℚ → ℚ → ℚ → ℚ → ℚ) (sites : List NexradSite)
    (lat lon : ℚ) (maxDistanceKm : Option ℚ) (filter : Option (NexradSite → Bool)) :
    Option NearestRadarResult :=
  if lat < -90 ∨ 90 < lat ∨ lon < -180 ∨ 180 < lon then none
  else
    match sites.foldl (scanStep dist lat lon filter) none with
    | none => none
    | some (s, d) =>
      match maxDistanceKm with
      | some m => if m < d then none else some ⟨s, d, d * qMiPerKm⟩
      | none => some ⟨s, d, d * qMiPerKm⟩

/-! ## Map runtime state and reducer (app/lib/maps/state.ts)

A layer's runtime state is a JavaScript object; spreading a missing entry
(`{...state.layers[id], enabled}`) yields an object holding only the
assigned field, so both fields are `Option`s here.  The `layers` map is an
association list in insertion order: spreading `{...m, [k]: v}` replaces an
existing key in place and appends a fresh key at the end (`setKey`). -/

structure LayerEntry where
  enabled : Option Bool
  opacity : Option ℚ
deriving DecidableEq, Repr

abbrev Layers := List (String × LayerEntry)

/-- `clamp01` from state.ts: `Math.max(0, Math.min(1, n))`; the `NaN → 0`
branch has no rational counterpart. -/
def clamp01 (n : ℚ) : ℚ :=
  ratMax 0 (ratMin 1 n)

def setKey (m : Layers) (k : String) (v : LayerEntry) : Layers :=
  if m.any (fun p => p.1 == k) then
    m.map (fun p => if p.1 == k then (k, v) else p)
  else m ++ [(k, v)]

/-- `LAYER_CATALOG` (app/lib/maps/layerCatalog.ts): the fields the reducer
reads (id and defaultOpacity), in catalog order. -/
structure CatalogItem where
  id : String
  defaultOpacity : ℚ
deriving DecidableEq, Repr

def LAYER_CATALOG : List CatalogItem :=
  [⟨"radar.reflectivity", q0_9⟩,
   ⟨"wildfire.smoke", q0_55⟩,
   ⟨"wildfire.perimeters", q0_85⟩,
   ⟨"wildfire.hotspots", q0_9⟩,
   ⟨"lightning.strikes", q0_95⟩,
   ⟨"alerts.polygons", q0_95⟩]

structure MapViewDefinition where
  id : String
  presetEnabledLayers : List String
  presetLayerOpacity : List (String × ℚ)
deriving DecidableEq, Repr

/-- `MAP_VIEWS` (app/lib/maps/views.ts). -/
def MAP_VIEWS : List MapViewDefinition :=
  [⟨"radar", ["radar.reflectivity"], []⟩,
   ⟨"wildfire", ["radar.reflectivity", "wildfire.smoke", "wildfire.perimeters"],
     [("radar.reflectivity", q0_85), ("wildfire.smoke", q0_55),
      ("wildfire.perimeters", q0_9)]⟩,
   ⟨"storm", ["radar.reflectivity", "lightning.strikes"], []⟩,
   ⟨"aviation", ["radar.reflectivity"], []⟩]

structure MapViewport where
  lat : ℚ
  lon : ℚ
  zoom : ℚ
deriving DecidableEq, Repr

structure RadarTimeState where
  frameIndex : Int
  playing : Bool
deriving DecidableEq, Repr

structure MapRuntimeState where
  viewId : String
  nerdy : Bool
  viewport : MapViewport
  layers : Layers
  radarTime : RadarTimeState
deriving DecidableEq, Repr

inductive MapAction where
  | setView (viewId : String)
  | setNerdy (nerdy : Bool)
  | setLayerEnabled (layerId : String) (enabled : Bool)
  | setLayerOpacity (layerId : String) (opacity : ℚ)
  | setViewport (viewport : MapViewport)
  | setRadarFrame (frameIndex : Int)
  | setRadarPlaying (playing : Bool)

def buildDefaultLayers : Layers :=
  LAYER_CATALOG.map (fun l => (l.id, ⟨some false, some l.defaultOpacity⟩))

/-- Loop body of `for (const id of view.presetEnabledLayers)`: set enabled
only if the id exists in the layers map. -/
def presetEnabledStep (m : Layers) (id : String) : Layers :=
  match m.lookup id with
  | some e => setKey m id { e with enabled := some true }
  | none => m

def applyPresetEnabled (layers : Layers) (ids : List String) : Layers :=
  ids.foldl presetEnabledStep layers

/-- Loop body of `for (const [id, op] of Object.entries(view.presetLayerOpacity))`;
the `typeof op === 'number'` guard always passes in the model. -/
def presetOpacityStep (m : Layers) (p : String × ℚ) : Layers :=
  match m.lookup p.1 with
  | some e => setKey m p.1 { e with opacity := some (clamp01 p.2) }
  | none => m

def applyPresetOpacity (layers : Layers) (ops : List (String × ℚ)) : Layers :=
  ops.foldl presetOpacityStep layers

/-- `createInitialMapState` with its option arguments supplied (the source
defaults them to viewId 'radar', nerdy false and a Mesa-area viewport). -/
def createInitialMapState (viewId : String) (nerdy : Bool) (viewport : MapViewport) :
    MapRuntimeState :=
  let layers := buildDefaultLayers
  let layers :=
    match MAP_VIEWS.find? (fun v => v.id == viewId) with
    | some view =>
      applyPresetOpacity (applyPresetEnabled layers view.presetEnabledLayers)
        view.presetLayerOpacity
    | none => layers
  ⟨viewId, nerdy, viewport, layers, ⟨0, false⟩⟩

/-- Loop body of the SET_VIEW opacity-restore loop: for each entry of the
previous state's layers map whose id still exists in the rebuilt map,
overwrite that entry's opacity with the previous value. -/
def restoreStep (m : Layers) (p : String × LayerEntry) : Layers :=
  match m.lookup p.1 with
  | some e => setKey m p.1 { e with opacity := p.2.opacity }
  | none => m

def restoreOpacities (base src : Layers) : Layers :=
  src.foldl restoreStep base

def mapReducer (state : MapRuntimeState) (action : MapAction) : MapRuntimeState :=
  match action with
  | .setView viewId =>
    let next := createInitialMapState viewId state.nerdy state.viewport
    { next with
        layers := restoreOpacities next.layers state.layers,
        radarTime := state.radarTime }
  | .setNerdy n => { state with nerdy := n }
  | .setLayerEnabled id b =>
    { state with
        layers := setKey state.layers id
          (match state.layers.lookup id with
            | some e => { e with enabled := some b }
            | none => ⟨some b, none⟩) }
  | .setLayerOpacity id o =>
    { state with
        layers := setKey state.layers id
          (match state.layers.lookup id with
            | some e => { e with opacity := some (clamp01 o) }
            | none => ⟨none, some (clamp01 o)⟩) }
  | .setViewport v => { state with viewport := v }
  | .setRadarFrame i => { state with radarTime := { state.radarTime with frameIndex := i } }
  | .setRadarPlaying p => { state with radarTime := { state.radarTime with playing := p } }

/-- The target view's preset enabled-layer list (empty for an unknown view
id, matching `MAP_VIEWS.find` returning undefined). -/
def presetEnabledLayersOf (viewId : String) : List String :=
  match MAP_VIEWS.find? (fun v => v.id == viewId) with
  | some view => view.presetEnabledLayers
  | none => []

/-! ## Concrete inputs used by witnesses -/

def vpW : MapViewport :=
  ⟨⟨41769, 1250, by decide, by decide⟩, ⟨-223663, 2000, by decide, by decide⟩, 9⟩

def s0W : MapRuntimeState := createInitialMapState "radar" false vpW

def distW : ℚ → ℚ → ℚ → ℚ → ℚ := fun _ _ slat slon => slat + slon

def sitesW : List NexradSite :=
  [⟨"KTLX", ⟨35333, 1000, by decide, by decide⟩, ⟨-48639, 500, by decide, by decide⟩⟩,
   ⟨"KFWS", ⟨32573, 1000, by decide, by decide⟩, ⟨-97303, 1000, by decide, by decide⟩⟩]

def respW4 : RVResponse :=
  ⟨some "https://h", [⟨.num 5, .str "abcd"⟩, ⟨.num 3, .str "efgh"⟩],
    [⟨.num 4, .str "ijkl"⟩]⟩

def respW7 : RVResponse := ⟨some "h", [⟨.num 1, .str "abcd"⟩], []⟩

/-! # Theorems -/

/-! ## Sorting lemmas for the provider's frame list -/

theorem mem_insertByTime {y e : RawEntry} {l : List RawEntry} :
    y ∈ insertByTime e l ↔ y = e ∨ y ∈ l := by
  induction l with
  | nil => simp [insertByTime]
  | cons x xs ih =>
    by_cases h : timeOf x < timeOf e
    · simp only [insertByTime, if_pos h, List.mem_cons, ih]
      tauto
    · simp only [insertByTime, if_neg h, List.mem_cons]

theorem pairwise_insertByTime (e : RawEntry) (l : List RawEntry)
    (h : l.Pairwise (fun a b => timeOf a ≤ timeOf b)) :
    (insertByTime e l).Pairwise (fun a b => timeOf a ≤ timeOf b) := by
  induction l with
  | nil => simp [insertByTime]
  | cons x xs ih =>
    rcases List.pairwise_cons.mp h with ⟨hx, hxs⟩
    by_cases hlt : timeOf x < timeOf e
    · rw [insertByTime, if_pos hlt]
      refine List.pairwise_cons.mpr ⟨?_, ih hxs⟩
      intro y hy
      rcases mem_insertByTime.mp hy with rfl | hy'
      · exact le_of_lt hlt
      · exact hx y hy'
    · rw [insertByTime, if_neg hlt]
      refine List.pairwise_cons.mpr ⟨?_, h⟩
      intro y hy
      rcases List.mem_cons.mp hy with rfl | hy'
      · exact le_of_not_lt hlt
      · exact le_trans (le_of_not_lt hlt) (hx y hy')

theorem pairwise_sortByTime (l : List RawEntry) :
    (sortByTime l).Pairwise (fun a b => timeOf a ≤ timeOf b) := by
  induction l with
  | nil => simp [sortByTime]
  | cons x xs ih => exact pairwise_insertByTime x (sortByTime xs) ih

theorem length_insertByTime (e : RawEntry) (l : List RawEntry) :
    (insertByTime e l).length = l.length + 1 := by
  induction l with
  | nil => rfl
  | cons x xs ih =>
    by_cases h : timeOf x < timeOf e
    · rw [insertByTime, if_pos h]
      simp [ih]
    · rw [insertByTime, if_neg h]
      simp

theorem length_sortByTime (l : List RawEntry) :
    (sortByTime l).length = l.length := by
  induction l with
  | nil => rfl
  | cons x xs ih =>
    rw [sortByTime, List.foldr_cons, ← sortByTime, length_insertByTime, ih]
    rfl

/-- A successful `fetchFrames` pins down the response's host: it is present
and non-empty. -/
theorem fetchFrames_ok_host {inc : Bool} {N : Nat} {resp : RVResponse}
    {frames : List RadarFrame} {host : String} {paths : List String}
    (hf : fetchFrames inc N resp = .ok (frames, host, paths)) :
    resp.host = some host ∧ host.data.isEmpty = false := by
  cases hh : resp.host with
  | none => simp [fetchFrames, hh] at hf
  | some h' =>
    simp only [fetchFrames, hh] at hf
    by_cases he : h'.data.isEmpty = true
    · rw [if_pos he] at hf
      cases hf
    · rw [if_neg he] at hf
      simp only [Except.ok.injEq, Prod.mk.injEq] at hf
      refine ⟨by rw [hf.2.1], ?_⟩
      rw [← hf.2.1]
      exact Bool.eq_false_iff.mpr he

/-! ## Claim theorems -/

/-- C8: with frame count 5, five applications of the timeline `next`
operation starting from any valid start index return that index, and so do
five applications of `prev`; for a frame count `n ≤ 0` both operations
return 0 at every index. -/
theorem timeline_full_cycle (i : Int) (h0 : 0 ≤ i) (h5 : i < 5) :
    nextFrameIndex (nextFrameIndex (nextFrameIndex (nextFrameIndex
      (nextFrameIndex i 5) 5) 5) 5) 5 = i ∧
    prevFrameIndex (prevFrameIndex (prevFrameIndex (prevFrameIndex
      (prevFrameIndex i 5) 5) 5) 5) 5 = i ∧
    ∀ j n : Int, n ≤ 0 → nextFrameIndex j n = 0 ∧ prevFrameIndex j n = 0 := by
  refine ⟨?_, ?_, ?_⟩
  · interval_cases i <;> decide
  · interval_cases i <;> decide
  · intro j n hn
    simp [nextFrameIndex, prevFrameIndex, if_pos hn]

/-- Witness for C8 at the concrete start index 2. -/
theorem timeline_full_cycle_witness :
    nextFrameIndex (nextFrameIndex (nextFrameIndex (nextFrameIndex
      (nextFrameIndex 2 5) 5) 5) 5) 5 = 2 ∧
    prevFrameIndex (prevFrameIndex (prevFrameIndex (prevFrameIndex
      (prevFrameIndex 2 5) 5) 5) 5) 5 = 2 ∧
    ∀ j n : Int, n ≤ 0 → nextFrameIndex j n = 0 ∧ prevFrameIndex j n = 0 :=
  timeline_full_cycle 2 (by decide) (by decide)

/-- C2: at every sample, `baseOpacity + fadeOpacity` equals the configured
radar opacity exactly in rational arithmetic — in particular during an
active crossfade (a fade template set, any progress value) — and when no
fade is active `baseOpacity` equals the configured opacity and
`fadeOpacity` equals 0. -/
theorem crossfade_opacity_invariant (radarOpacity fadeT : ℚ)
    (fadeUrl : Option String) :
    baseOpacity radarOpacity fadeUrl fadeT + fadeOpacity radarOpacity fadeUrl fadeT
        = radarOpacity ∧
    (fadeUrl = none →
      baseOpacity radarOpacity fadeUrl fadeT = radarOpacity ∧
      fadeOpacity radarOpacity fadeUrl fadeT = 0) := by
  constructor
  · cases fadeUrl <;> (simp [baseOpacity, fadeOpacity]; try ring)
  · intro h
    subst h
    simp [baseOpacity, fadeOpacity]

/-- C5 counterexample: the radarIem tile template builder appends the fixed
tile suffix to a path that already contains all three `\x7bz\x7d`, `\x7bx\x7d`,
`\x7by\x7d` placeholders, instead of returning host + path unchanged. -/
theorem tile_template_cex :
    strIncludes "/a/\x7bz\x7d/\x7bx\x7d/\x7by\x7d.png" zTok = true ∧
    strIncludes "/a/\x7bz\x7d/\x7bx\x7d/\x7by\x7d.png" xTok = true ∧
    strIncludes "/a/\x7bz\x7d/\x7bx\x7d/\x7by\x7d.png" yTok = true ∧
    buildRainViewerTileTemplate "https://h" "/a/\x7bz\x7d/\x7bx\x7d/\x7by\x7d.png"
      = "https://h" ++ "/a/\x7bz\x7d/\x7bx\x7d/\x7by\x7d.png" ++ tileSuffix ∧
    buildRainViewerTileTemplate "https://h" "/a/\x7bz\x7d/\x7bx\x7d/\x7by\x7d.png"
      ≠ "https://h" ++ "/a/\x7bz\x7d/\x7bx\x7d/\x7by\x7d.png" := by
  refine ⟨by decide, by decide, by decide, by rfl, by decide⟩

/-- C5 amended: the provider adapter's `tileTemplateFor` returns host ++ path
unchanged when the path already contains all three placeholders and appends
the fixed tile suffix otherwise, while the radarIem builder
`buildRainViewerTileTemplate` always appends the suffix regardless of
placeholders. -/
theorem tile_template_spec (host path : String) :
    (strIncludes path zTok = true ∧ strIncludes path xTok = true ∧
        strIncludes path yTok = true →
      tileTemplateFor host path = host ++ path) ∧
    (¬ (strIncludes path zTok = true ∧ strIncludes path xTok = true ∧
        strIncludes path yTok = true) →
      tileTemplateFor host path = host ++ path ++ tileSuffix) ∧
    (∃ s : String, buildRainViewerTileTemplate host path = s ++ tileSuffix) := by
  refine ⟨?_, ?_, ?_⟩
  · rintro ⟨h1, h2, h3⟩
    simp [tileTemplateFor, h1, h2, h3]
  · intro h
    have hc : (strIncludes path zTok && strIncludes path xTok
        && strIncludes path yTok) = false := by
      cases hz : strIncludes path zTok <;>
        cases hx : strIncludes path xTok <;>
          cases hy : strIncludes path yTok <;> simp_all
    simp [tileTemplateFor, hc]
  · exact ⟨_, rfl⟩

/-- C4 counterexample: an entry whose path is a string of length ≤ 3 is
dropped by `fetchFrames`, so the produced frame list is not the sorted,
truncated concatenation of the response's past and nowcast entries. -/
theorem provider_frames_cex :
    fetchFrames true 12 ⟨some "https://h", [⟨.num 1, .str "ab"⟩], []⟩
      = .ok ([], "https://h", []) ∧
    claimedFrames 12 ⟨some "https://h", [⟨.num 1, .str "ab"⟩], []⟩ = [⟨1⟩] ∧
    ([] : List RadarFrame) ≠ [⟨1⟩] := by
  refine ⟨by rfl, by rfl, by decide⟩

/-- C4 amended: for a response with a present, non-empty host whose past and
nowcast entries all pass the validity filter (numeric time, string path of
length > 3), the primary provider's frame-fetch returns exactly the
concatenation of past and nowcast sorted ascending by time and truncated to
the most recent `N` frames (`N` defaults to 12 in the source), a list that
is sorted by time with length at most `N`; entries failing the filter are
dropped first. -/
theorem provider_frames_spec (N : Nat) (resp : RVResponse) (host : String)
    (hhost : resp.host = some host) (hne : host.data.isEmpty = false)
    (hvalid : ∀ e ∈ resp.past ++ resp.nowcast, entryValid e = true) :
    (∃ paths, fetchFrames true N resp = .ok (claimedFrames N resp, host, paths)) ∧
    (claimedFrames N resp).Pairwise (fun a b => a.t ≤ b.t) ∧
    (claimedFrames N resp).length ≤ N := by
  have hfe : (resp.past ++ resp.nowcast).filter entryValid = resp.past ++ resp.nowcast :=
    List.filter_eq_self.mpr hvalid
  refine ⟨?_, ?_, ?_⟩
  · refine ⟨((sortByTime (resp.past ++ resp.nowcast)).drop
      ((sortByTime (resp.past ++ resp.nowcast)).length - N)).map pathOf, ?_⟩
    simp only [fetchFrames, hhost, hne, Bool.false_eq_true, if_false, if_true, hfe,
      claimedFrames]
  · rw [claimedFrames]
    refine List.pairwise_map.mpr ?_
    exact List.Pairwise.sublist (List.drop_sublist _ _) (pairwise_sortByTime _)
  · rw [claimedFrames]
    simp only [List.length_map, List.length_drop, length_sortByTime]
    omega

/-- Witness for C4's amended theorem: a three-entry response with valid
entries, truncated to the most recent 2 frames. -/
theorem provider_frames_spec_witness :
    (∃ paths, fetchFrames true 2 respW4 = .ok (claimedFrames 2 respW4, "https://h", paths)) ∧
    (claimedFrames 2 respW4).Pairwise (fun a b => a.t ≤ b.t) ∧
    (claimedFrames 2 respW4).length ≤ 2 :=
  provider_frames_spec 2 respW4 "https://h" rfl rfl (by decide)

/-- C3 counterexample: a response with a host but an empty frame list — a
malformed manifest in the claim's sense — is stored in the provider's cache
and returned without error, changing the cache state. -/
theorem manifest_error_cex :
    getFrames true 12 60000 initialRVCache 0 (.ok ⟨some "https://h", [], []⟩)
      = (.ok [], rvCachedState [] "https://h" [] 60000, 1) ∧
    rvCachedState [] "https://h" [] 60000 ≠ initialRVCache := by
  refine ⟨by rfl, by decide⟩

/-- C3 amended: when the cache guard misses, a network failure or a response
with a missing or empty host leaves the provider cache unchanged and
propagates an error to the caller; a response `fetchFrames` accepts —
including one whose entries were all filtered away, leaving an empty frame
list — is stored wholesale in the cache and returned without error. -/
theorem manifest_error_not_cached (inc : Bool) (N : Nat) (ttl : Int)
    (st : RVCacheState) (now : Int) (hmiss : rvCacheHit st now = false) :
    (∀ e, getFrames inc N ttl st now (.error e) = (.error e, st, 1)) ∧
    (∀ resp, resp.host = none ∨ resp.host = some "" →
      ∃ msg, getFrames inc N ttl st now (.ok resp) = (.error msg, st, 1)) ∧
    (∀ resp frames host paths,
      fetchFrames inc N resp = .ok (frames, host, paths) →
      getFrames inc N ttl st now (.ok resp)
        = (.ok frames, rvCachedState frames host paths (now + ttl), 1)) := by
  refine ⟨?_, ?_, ?_⟩
  · intro e
    simp [getFrames, hmiss]
  · rintro resp (h | h)
    · have hfe : fetchFrames inc N resp = .error "RainViewer maps.json missing host" := by
        simp [fetchFrames, h]
      refine ⟨"RainViewer maps.json missing host", ?_⟩
      simp [getFrames, hmiss, hfe]
    · have hfe : fetchFrames inc N resp = .error "RainViewer maps.json missing host" := by
        simp [fetchFrames, h]
      refine ⟨"RainViewer maps.json missing host", ?_⟩
      simp [getFrames, hmiss, hfe]
  · intro resp frames host paths hf
    simp [getFrames, hmiss, hf, rvCachedState]

/-- Witness for C3's amended theorem at the initial (empty) cache. -/
theorem manifest_error_not_cached_witness :
    (∀ e, getFrames true 12 60000 initialRVCache 0 (.error e) = (.error e, initialRVCache, 1)) ∧
    (∀ resp, resp.host = none ∨ resp.host = some "" →
      ∃ msg, getFrames true 12 60000 initialRVCache 0 (.ok resp)
        = (.error msg, initialRVCache, 1)) ∧
    (∀ resp frames host paths,
      fetchFrames true 12 resp = .ok (frames, host, paths) →
      getFrames true 12 60000 initialRVCache 0 (.ok resp)
        = (.ok frames, rvCachedState frames host paths (0 + 60000), 1)) :=
  manifest_error_not_cached true 12 60000 initialRVCache 0 (by decide)

/-- C7: starting from the empty cache, a successful `getFrames` call
performs one upstream fetch and fills the cache; a second call while the
cached manifest is younger than the TTL performs no fetch and returns the
cached frames with the cache unchanged; a call after the TTL has elapsed
performs exactly one additional fetch and replaces the cache entry wholesale
(frames, host, paths and expiry together).  The radarIem maps.json cache
behaves the same way with its fixed 60-second TTL. -/
theorem manifest_cache_ttl (inc : Bool) (N : Nat) (ttl : Int)
    (resp : RVResponse) (frames : List RadarFrame) (host : String)
    (paths : List String) (t0 t1 : Int) (u : Except String RVResponse)
    (hf : fetchFrames inc N resp = .ok (frames, host, paths)) :
    getFrames inc N ttl initialRVCache t0 (.ok resp)
      = (.ok frames, rvCachedState frames host paths (t0 + ttl), 1) ∧
    (t1 < t0 + ttl →
      getFrames inc N ttl (rvCachedState frames host paths (t0 + ttl)) t1 u
        = (.ok frames, rvCachedState frames host paths (t0 + ttl), 0)) ∧
    (t0 + ttl ≤ t1 → ∀ resp2 frames2 host2 paths2,
      fetchFrames inc N resp2 = .ok (frames2, host2, paths2) →
      getFrames inc N ttl (rvCachedState frames host paths (t0 + ttl)) t1 (.ok resp2)
        = (.ok frames2, rvCachedState frames2 host2 paths2 (t1 + ttl), 1)) ∧
    (∀ d : RVResponse,
      (t1 - t0 < 60000 →
        fetchRainViewerMapsJson ⟨t0, some d⟩ t1 u = (.ok d, ⟨t0, some d⟩, 0)) ∧
      (60000 ≤ t1 - t0 → ∀ d2,
        fetchRainViewerMapsJson ⟨t0, some d⟩ t1 (.ok d2) = (.ok d2, ⟨t1, some d2⟩, 1))) := by
  have hhost := fetchFrames_ok_host hf
  simp only [rvCachedState]
  refine ⟨?_, ?_, ?_, ?_⟩
  · have hm : rvCacheHit initialRVCache t0 = false := by
      simp [rvCacheHit, initialRVCache]
    simp [getFrames, hm, hf]
  · intro hlt
    have hh : rvCacheHit ⟨some frames, some host, some paths, t0 + ttl⟩ t1 = true := by
      simp [rvCacheHit, optStrTruthy, hhost.2, hlt]
    simp [getFrames, hh]
  · intro hge resp2 frames2 host2 paths2 hf2
    have hnlt : ¬ (t1 < t0 + ttl) := by omega
    have hm : rvCacheHit ⟨some frames, some host, some paths, t0 + ttl⟩ t1 = false := by
      simp [rvCacheHit, hnlt]
    simp [getFrames, hm, hf2]
  · intro d
    constructor
    · intro hlt
      simp [fetchRainViewerMapsJson, hlt]
    · intro hge d2
      have hnl : ¬ (t1 - t0 < 60000) := by omega
      simp [fetchRainViewerMapsJson, rvMapsFetch, hnl]

/-- Witness for C7 with a one-frame manifest fetched at time 0 and re-read
at time 1. -/
theorem manifest_cache_ttl_witness :
    getFrames true 12 60000 initialRVCache 0 (.ok respW7)
      = (.ok [⟨1⟩], rvCachedState [⟨1⟩] "h" ["abcd"] (0 + 60000), 1) ∧
    ((1 : Int) < 0 + 60000 →
      getFrames true 12 60000 (rvCachedState [⟨1⟩] "h" ["abcd"] (0 + 60000)) 1 (.error "boom")
        = (.ok [⟨1⟩], rvCachedState [⟨1⟩] "h" ["abcd"] (0 + 60000), 0)) ∧
    ((0 : Int) + 60000 ≤ 1 → ∀ resp2 frames2 host2 paths2,
      fetchFrames true 12 resp2 = .ok (frames2, host2, paths2) →
      getFrames true 12 60000 (rvCachedState [⟨1⟩] "h" ["abcd"] (0 + 60000)) 1 (.ok resp2)
        = (.ok frames2, rvCachedState frames2 host2 paths2 (1 + 60000), 1)) ∧
    (∀ d : RVResponse,
      ((1 : Int) - 0 < 60000 →
        fetchRainViewerMapsJson ⟨0, some d⟩ 1 (.error "boom") = (.ok d, ⟨0, some d⟩, 0)) ∧
      (60000 ≤ (1 : Int) - 0 → ∀ d2,
        fetchRainViewerMapsJson ⟨0, some d⟩ 1 (.ok d2) = (.ok d2, ⟨1, some d2⟩, 1))) :=
  manifest_cache_ttl true 12 60000 respW7 [⟨1⟩] "h" ["abcd"] 0 1 (.error "boom") rfl

/-- The running-minimum scan from a non-empty accumulator: the result is the
accumulator itself when it is already minimal, and otherwise the first
strict improvement of the overall minimum found in the remaining list. -/
theorem scan_from_some (dist : ℚ → ℚ → ℚ → ℚ → ℚ) (lat lon : ℚ)
    (t : List NexradSite) (a : NexradSite) (da : ℚ) :
    ∃ b db, t.foldl (scanStep dist lat lon none) (some (a, da)) = some (b, db) ∧
      db ≤ da ∧ (∀ x ∈ t, db ≤ dist lat lon x.lat x.lon) ∧
      ((b = a ∧ db = da) ∨
        (∃ pre post, t = pre ++ b :: post ∧ db = dist lat lon b.lat b.lon ∧
          db < da ∧ ∀ x ∈ pre, db < dist lat lon x.lat x.lon)) := by
  induction t generalizing a da with
  | nil => exact ⟨a, da, rfl, le_refl _, by simp, Or.inl ⟨rfl, rfl⟩⟩
  | cons x t' ih =>
    rw [List.foldl_cons]
    by_cases hx : dist lat lon x.lat x.lon < da
    · rw [show scanStep dist lat lon none (some (a, da)) x
          = some (x, dist lat lon x.lat x.lon) by simp [scanStep, hx]]
      obtain ⟨b, db, heq, hle, hmin, hcase⟩ := ih x (dist lat lon x.lat x.lon)
      refine ⟨b, db, heq, le_of_lt (lt_of_le_of_lt hle hx), ?_, ?_⟩
      · intro y hy
        rcases List.mem_cons.mp hy with rfl | hy'
        · exact hle
        · exact hmin y hy'
      · rcases hcase with ⟨rfl, rfl⟩ | ⟨pre, post, rfl, hdb, hlt, hpre⟩
        · exact Or.inr ⟨[], t', rfl, rfl, hx, by simp⟩
        · refine Or.inr ⟨x :: pre, post, rfl, hdb, lt_trans hlt hx, ?_⟩
          intro y hy
          rcases List.mem_cons.mp hy with rfl | hy'
          · exact hlt
          · exact hpre y hy'
    · rw [show scanStep dist lat lon none (some (a, da)) x = some (a, da) by
        simp [scanStep, hx]]
      obtain ⟨b, db, heq, hle, hmin, hcase⟩ := ih a da
      refine ⟨b, db, heq, hle, ?_, ?_⟩
      · intro y hy
        rcases List.mem_cons.mp hy with rfl | hy'
        · exact le_trans hle (le_of_not_lt hx)
        · exact hmin y hy'
      · rcases hcase with ⟨rfl, rfl⟩ | ⟨pre, post, rfl, hdb, hlt, hpre⟩
        · exact Or.inl ⟨rfl, rfl⟩
        · refine Or.inr ⟨x :: pre, post, rfl, hdb, hlt, ?_⟩
          intro y hy
          rcases List.mem_cons.mp hy with rfl | hy'
          · exact lt_of_lt_of_le hlt (le_of_not_lt hx)
          · exact hpre y hy'

/-- The running-minimum scan over a non-empty registry with no filter:
it yields the first site attaining the minimal distance. -/
theorem scan_from_none (dist : ℚ → ℚ → ℚ → ℚ → ℚ) (lat lon : ℚ)
    (sites : List NexradSite) (hne : sites ≠ []) :
    ∃ b db pre post, sites.foldl (scanStep dist lat lon none) none = some (b, db) ∧
      sites = pre ++ b :: post ∧ db = dist lat lon b.lat b.lon ∧
      (∀ x ∈ sites, db ≤ dist lat lon x.lat x.lon) ∧
      (∀ x ∈ pre, db < dist lat lon x.lat x.lon) := by
  cases sites with
  | nil => exact absurd rfl hne
  | cons a t =>
    rw [List.foldl_cons,
      show scanStep dist lat lon none none a = some (a, dist lat lon a.lat a.lon) by
        simp [scanStep]]
    obtain ⟨b, db, heq, hle, hmin, hcase⟩ := scan_from_some dist lat lon t a _
    rcases hcase with ⟨rfl, rfl⟩ | ⟨pre, post, rfl, hdb, hlt, hpre⟩
    · refine ⟨b, _, [], t, heq, rfl, rfl, ?_, by simp⟩
      intro y hy
      rcases List.mem_cons.mp hy with rfl | hy'
      · exact le_refl _
      · exact hmin y hy'
    · refine ⟨b, db, a :: pre, post, heq, rfl, hdb, ?_, ?_⟩
      · intro y hy
        rcases List.mem_cons.mp hy with rfl | hy'
        · exact hle
        · exact hmin y hy'
      · intro y hy
        rcases List.mem_cons.mp hy with rfl | hy'
        · exact hlt
        · exact hpre y hy'

/-- C6: for every in-range point and every non-empty registry,
`resolveNearestRadar` with no filter and no maxDistanceKm returns a site of
the registry whose distance to the point is at most the distance of every
other candidate, and every candidate encountered before the returned one is
at strictly greater distance — so the first-encountered candidate in
registry order wins exact ties.  Verified for every distance function
`dist`, covering the floating-point haversine instance. -/
theorem nearest_radar_min (dist : ℚ → ℚ → ℚ → ℚ → ℚ) (sites : List NexradSite)
    (lat lon : ℚ) (hlat : -90 ≤ lat ∧ lat ≤ 90) (hlon : -180 ≤ lon ∧ lon ≤ 180)
    (hne : sites ≠ []) :
    ∃ r pre post, resolveNearestRadar dist sites lat lon none none = some r ∧
      sites = pre ++ r.site :: post ∧
      r.distanceKm = dist lat lon r.site.lat r.site.lon ∧
      (∀ s ∈ sites, r.distanceKm ≤ dist lat lon s.lat s.lon) ∧
      (∀ s ∈ pre, r.distanceKm < dist lat lon s.lat s.lon) := by
  obtain ⟨b, db, pre, post, heq, hsplit, hdb, hmin, hpre⟩ :=
    scan_from_none dist lat lon sites hne
  refine ⟨⟨b, db, db * qMiPerKm⟩, pre, post, ?_, hsplit, hdb, hmin, hpre⟩
  rw [resolveNearestRadar, if_neg (by push_neg; exact ⟨hlat.1, hlat.2, hlon.1, hlon.2⟩),
    heq]

/-- Witness for C6: a two-site registry probed with a synthetic distance
function at the point (33, -97). -/
theorem nearest_radar_min_witness :
    ∃ r pre post, resolveNearestRadar distW sitesW 33 (-97) none none = some r ∧
      sitesW = pre ++ r.site :: post ∧
      r.distanceKm = distW 33 (-97) r.site.lat r.site.lon ∧
      (∀ s ∈ sitesW, r.distanceKm ≤ distW 33 (-97) s.lat s.lon) ∧
      (∀ s ∈ pre, r.distanceKm < distW 33 (-97) s.lat s.lon) :=
  nearest_radar_min distW sitesW 33 (-97) (by norm_num) (by norm_num) (by decide)

/-! ## Association-list lemmas for the layers map -/

theorem lookup_cons (p : String × LayerEntry) (t : Layers) (k : String) :
    (p :: t).lookup k = if k == p.1 then some p.2 else t.lookup k := by
  rcases p with ⟨a, b⟩
  cases hb : k == a <;> simp [List.lookup, hb]

theorem lookup_eq_none_iff (m : Layers) (k : String) :
    m.lookup k = none ↔ ∀ p ∈ m, p.1 ≠ k := by
  induction m with
  | nil => simp [List.lookup]
  | cons p t ih =>
    rw [lookup_cons]
    by_cases hp : k = p.1
    · rw [if_pos (beq_iff_eq.mpr hp)]
      simp only [reduceCtorEq, false_iff, not_forall]
      exact ⟨p, List.mem_cons_self _ _, fun hne => hne hp.symm⟩
    · rw [if_neg (by simp [hp]), ih]
      constructor
      · intro h q hq
        rcases List.mem_cons.mp hq with rfl | hq'
        · exact fun hk => hp hk.symm
        · exact h q hq'
      · intro h q hq
        exact h q (List.mem_cons_of_mem _ hq)

theorem any_key_iff (m : Layers) (k : String) :
    (m.any (fun p => p.1 == k)) = true ↔ ∃ p ∈ m, p.1 = k := by
  simp [List.any_eq_true]

theorem lookup_isSome_iff (m : Layers) (k : String) :
    (m.lookup k).isSome = true ↔ k ∈ m.map Prod.fst := by
  induction m with
  | nil => simp [List.lookup]
  | cons p t ih =>
    rw [lookup_cons]
    by_cases hp : k = p.1
    · rw [if_pos (beq_iff_eq.mpr hp)]
      simp [hp]
    · rw [if_neg (by simp [hp])]
      simp [ih, hp]

theorem lookup_mapset_self (m : Layers) (k : String) (v : LayerEntry)
    (hmem : ∃ p ∈ m, p.1 = k) :
    (m.map (fun p => if p.1 == k then (k, v) else p)).lookup k = some v := by
  induction m with
  | nil => simp at hmem
  | cons q t ih =>
    rw [List.map_cons]
    by_cases hq : q.1 = k
    · rw [if_pos (beq_iff_eq.mpr hq)]
      simp [lookup_cons]
    · rw [if_neg (by simp [hq]), lookup_cons,
        if_neg (by rw [beq_eq_false_iff_ne.mpr (fun h => hq h.symm)]; exact Bool.false_ne_true)]
      obtain ⟨p, hp, hpk⟩ := hmem
      rcases List.mem_cons.mp hp with rfl | hp'
      · exact absurd hpk hq
      · exact ih ⟨p, hp', hpk⟩

theorem lookup_mapset_ne (m : Layers) (k k' : String) (v : LayerEntry)
    (h : k' ≠ k) :
    (m.map (fun p => if p.1 == k then (k, v) else p)).lookup k' = m.lookup k' := by
  induction m with
  | nil => rfl
  | cons q t ih =>
    rw [List.map_cons]
    by_cases hq : q.1 = k
    · rw [if_pos (beq_iff_eq.mpr hq), lookup_cons, lookup_cons,
        if_neg (by simp [h]), if_neg (by simp [hq, h]), ih]
    · rw [if_neg (by simp [hq]), lookup_cons, lookup_cons]
      by_cases hkq : k' = q.1
      · rw [if_pos (beq_iff_eq.mpr hkq), if_pos (beq_iff_eq.mpr hkq)]
      · rw [if_neg (by simp [hkq]), if_neg (by simp [hkq]), ih]

theorem lookup_append_single_self (m : Layers) (k : String) (v : LayerEntry)
    (hnone : m.lookup k = none) :
    (m ++ [(k, v)]).lookup k = some v := by
  induction m with
  | nil => simp [List.lookup]
  | cons q t ih =>
    rw [lookup_cons] at hnone
    rw [List.cons_append, lookup_cons]
    by_cases hq : k = q.1
    · rw [if_pos (beq_iff_eq.mpr hq)] at hnone
      cases hnone
    · rw [if_neg (by simp [hq])] at hnone ⊢
      exact ih hnone

theorem lookup_append_single_ne (m : Layers) (k k' : String) (v : LayerEntry)
    (h : k' ≠ k) :
    (m ++ [(k, v)]).lookup k' = m.lookup k' := by
  induction m with
  | nil => simp [List.lookup, beq_eq_false_iff_ne.mpr h]
  | cons q t ih =>
    rw [List.cons_append, lookup_cons, lookup_cons]
    by_cases hq : k' = q.1
    · rw [if_pos (beq_iff_eq.mpr hq), if_pos (beq_iff_eq.mpr hq)]
    · rw [if_neg (by simp [hq]), if_neg (by simp [hq]), ih]

theorem not_any_lookup_none (m : Layers) (k : String)
    (hany : ¬ (m.any (fun p => p.1 == k)) = true) : m.lookup k = none := by
  rw [lookup_eq_none_iff]
  intro p hp hpk
  exact hany ((any_key_iff m k).mpr ⟨p, hp, hpk⟩)

theorem setKey_of_absent (m : Layers) (k : String) (v : LayerEntry)
    (h : m.lookup k = none) : setKey m k v = m ++ [(k, v)] := by
  rw [setKey, if_neg]
  intro hany
  obtain ⟨p, hp, hpk⟩ := (any_key_iff m k).mp hany
  exact (lookup_eq_none_iff m k).mp h p hp hpk

theorem lookup_setKey_self (m : Layers) (k : String) (v : LayerEntry) :
    (setKey m k v).lookup k = some v := by
  rw [setKey]
  by_cases hany : (m.any (fun p => p.1 == k)) = true
  · rw [if_pos hany]
    exact lookup_mapset_self m k v ((any_key_iff m k).mp hany)
  · rw [if_neg hany]
    exact lookup_append_single_self m k v (not_any_lookup_none m k hany)

theorem lookup_setKey_ne (m : Layers) (k k' : String) (v : LayerEntry)
    (h : k' ≠ k) : (setKey m k v).lookup k' = m.lookup k' := by
  rw [setKey]
  by_cases hany : (m.any (fun p => p.1 == k)) = true
  · rw [if_pos hany]
    exact lookup_mapset_ne m k k' v h
  · rw [if_neg hany]
    exact lookup_append_single_ne m k k' v h

theorem keys_mapset (m : Layers) (k : String) (v : LayerEntry) :
    ((m.map (fun p => if p.1 == k then (k, v) else p)).map Prod.fst)
      = m.map Prod.fst := by
  rw [List.map_map]
  refine List.map_congr_left fun p hp => ?_
  by_cases hpk : p.1 = k
  · simp [Function.comp, hpk]
  · simp [Function.comp, hpk]

theorem keys_setKey_of_mem (m : Layers) (k : String) (v : LayerEntry)
    (h : (m.lookup k).isSome = true) :
    (setKey m k v).map Prod.fst = m.map Prod.fst := by
  have hmem := (lookup_isSome_iff m k).mp h
  obtain ⟨p, hp, hpk⟩ := List.mem_map.mp hmem
  rw [setKey, if_pos ((any_key_iff m k).mpr ⟨p, hp, hpk⟩)]
  exact keys_mapset m k v

/-! ## Reducer fold lemmas -/

theorem lookup_restoreStep_ne (m : Layers) (p : String × LayerEntry) (id : String)
    (h : id ≠ p.1) : (restoreStep m p).lookup id = m.lookup id := by
  rw [restoreStep]
  cases hm : m.lookup p.1 with
  | none => rfl
  | some e => exact lookup_setKey_ne _ _ _ _ h

theorem lookup_restoreStep_enabled (m : Layers) (p : String × LayerEntry) (id : String) :
    ((restoreStep m p).lookup id).map LayerEntry.enabled
      = (m.lookup id).map LayerEntry.enabled := by
  rw [restoreStep]
  cases hm : m.lookup p.1 with
  | none => rfl
  | some e =>
    by_cases hid : id = p.1
    · subst hid
      rw [lookup_setKey_self, hm]
      rfl
    · rw [lookup_setKey_ne _ _ _ _ hid]

theorem keys_restoreStep (m : Layers) (p : String × LayerEntry) :
    (restoreStep m p).map Prod.fst = m.map Prod.fst := by
  rw [restoreStep]
  cases hm : m.lookup p.1 with
  | none => rfl
  | some e => exact keys_setKey_of_mem _ _ _ (by rw [hm]; rfl)

theorem keys_restoreOpacities (base src : Layers) :
    (restoreOpacities base src).map Prod.fst = base.map Prod.fst := by
  induction src generalizing base with
  | nil => rfl
  | cons p t ih =>
    rw [restoreOpacities, List.foldl_cons, ← restoreOpacities, ih, keys_restoreStep]

theorem enabled_restoreOpacities (base src : Layers) (id : String) :
    ((restoreOpacities base src).lookup id).map LayerEntry.enabled
      = (base.lookup id).map LayerEntry.enabled := by
  induction src generalizing base with
  | nil => rfl
  | cons p t ih =>
    rw [restoreOpacities, List.foldl_cons, ← restoreOpacities, ih,
      lookup_restoreStep_enabled]

theorem lookup_eq_none_of_not_mem_keys (m : Layers) (k : String)
    (h : k ∉ m.map Prod.fst) : m.lookup k = none := by
  cases hm : m.lookup k with
  | none => rfl
  | some e => exact absurd ((lookup_isSome_iff m k).mp (by rw [hm]; rfl)) h

theorem lookup_restoreOpacities_none (base src : Layers) (id : String)
    (hsrc : src.lookup id = none) :
    (restoreOpacities base src).lookup id = base.lookup id := by
  induction src generalizing base with
  | nil => rfl
  | cons p t ih =>
    rw [lookup_cons] at hsrc
    by_cases hp : id = p.1
    · rw [if_pos (beq_iff_eq.mpr hp)] at hsrc
      cases hsrc
    · rw [if_neg (by simp [hp])] at hsrc
      rw [restoreOpacities, List.foldl_cons, ← restoreOpacities, ih _ hsrc,
        lookup_restoreStep_ne _ _ _ hp]

theorem lookup_restoreOpacities_some (base src : Layers) (id : String) (st : LayerEntry)
    (hnd : (src.map Prod.fst).Nodup) (hsrc : src.lookup id = some st) :
    (restoreOpacities base src).lookup id
      = (base.lookup id).map (fun e => { e with opacity := st.opacity }) := by
  induction src generalizing base with
  | nil => cases hsrc
  | cons p t ih =>
    rw [List.map_cons, List.nodup_cons] at hnd
    rw [lookup_cons] at hsrc
    rw [restoreOpacities, List.foldl_cons, ← restoreOpacities]
    by_cases hp : id = p.1
    · subst hp
      rw [if_pos (beq_self_eq_true _)] at hsrc
      cases hsrc
      have htl : t.lookup p.1 = none :=
        lookup_eq_none_of_not_mem_keys t p.1 hnd.1
      rw [lookup_restoreOpacities_none _ _ _ htl, restoreStep]
      cases hb : base.lookup p.1 with
      | none => simp [hb]
      | some e => simp [hb, lookup_setKey_self]
    · rw [if_neg (by simp [hp])] at hsrc
      rw [ih _ hnd.2 hsrc, lookup_restoreStep_ne _ _ _ hp]

/-! ## Preset application lemmas -/

theorem lookup_presetEnabledStep_ne (m : Layers) (k id : String)
    (h : id ≠ k) : (presetEnabledStep m k).lookup id = m.lookup id := by
  rw [presetEnabledStep]
  cases hm : m.lookup k with
  | none => rfl
  | some e => exact lookup_setKey_ne _ _ _ _ h

theorem keys_presetEnabledStep (m : Layers) (k : String) :
    (presetEnabledStep m k).map Prod.fst = m.map Prod.fst := by
  rw [presetEnabledStep]
  cases hm : m.lookup k with
  | none => rfl
  | some e => exact keys_setKey_of_mem _ _ _ (by rw [hm]; rfl)

theorem keys_applyPresetEnabled (m : Layers) (ids : List String) :
    (applyPresetEnabled m ids).map Prod.fst = m.map Prod.fst := by
  induction ids generalizing m with
  | nil => rfl
  | cons k t ih =>
    rw [applyPresetEnabled, List.foldl_cons, ← applyPresetEnabled, ih,
      keys_presetEnabledStep]

theorem lookup_applyPresetEnabled (m : Layers) (ids : List String) (id : String) :
    (applyPresetEnabled m ids).lookup id
      = (m.lookup id).map
          (fun e => if id ∈ ids then { e with enabled := some true } else e) := by
  induction ids generalizing m with
  | nil =>
    show m.lookup id = _
    cases hm : m.lookup id
    · rfl
    · simp
  | cons k t ih =>
    rw [applyPresetEnabled, List.foldl_cons, ← applyPresetEnabled, ih]
    by_cases hk : id = k
    · subst hk
      cases hm : m.lookup id with
      | none =>
        rw [show presetEnabledStep m id = m by rw [presetEnabledStep, hm], hm]
        rfl
      | some e =>
        rw [show presetEnabledStep m id
            = setKey m id { e with enabled := some true } by
          rw [presetEnabledStep, hm]]
        rw [lookup_setKey_self]
        simp only [Option.map_some']
        by_cases ht : id ∈ t
        · rw [if_pos ht, if_pos (List.mem_cons_self _ _)]
        · rw [if_neg ht, if_pos (List.mem_cons_self _ _)]
    · rw [lookup_presetEnabledStep_ne _ _ _ hk]
      cases hm : m.lookup id with
      | none => rfl
      | some e =>
        simp only [Option.map_some']
        by_cases ht : id ∈ t
        · rw [if_pos ht, if_pos (List.mem_cons_of_mem _ ht)]
        · rw [if_neg ht, if_neg (by simp [hk, ht])]

theorem enabled_presetOpacityStep (m : Layers) (p : String × ℚ) (id : String) :
    ((presetOpacityStep m p).lookup id).map LayerEntry.enabled
      = (m.lookup id).map LayerEntry.enabled := by
  rw [presetOpacityStep]
  cases hm : m.lookup p.1 with
  | none => rfl
  | some e =>
    by_cases hid : id = p.1
    · subst hid
      rw [lookup_setKey_self, hm]
      rfl
    · rw [lookup_setKey_ne _ _ _ _ hid]

theorem keys_presetOpacityStep (m : Layers) (p : String × ℚ) :
    (presetOpacityStep m p).map Prod.fst = m.map Prod.fst := by
  rw [presetOpacityStep]
  cases hm : m.lookup p.1 with
  | none => rfl
  | some e => exact keys_setKey_of_mem _ _ _ (by rw [hm]; rfl)

theorem keys_applyPresetOpacity (m : Layers) (ops : List (String × ℚ)) :
    (applyPresetOpacity m ops).map Prod.fst = m.map Prod.fst := by
  induction ops generalizing m with
  | nil => rfl
  | cons p t ih =>
    rw [applyPresetOpacity, List.foldl_cons, ← applyPresetOpacity, ih,
      keys_presetOpacityStep]

theorem enabled_applyPresetOpacity (m : Layers) (ops : List (String × ℚ)) (id : String) :
    ((applyPresetOpacity m ops).lookup id).map LayerEntry.enabled
      = (m.lookup id).map LayerEntry.enabled := by
  induction ops generalizing m with
  | nil => rfl
  | cons p t ih =>
    rw [applyPresetOpacity, List.foldl_cons, ← applyPresetOpacity, ih,
      enabled_presetOpacityStep]

/-! ## Initial-state lemmas -/

theorem keys_buildDefaultLayers :
    buildDefaultLayers.map Prod.fst = LAYER_CATALOG.map CatalogItem.id := by
  rw [buildDefaultLayers, List.map_map]
  rfl

theorem lookup_build_aux (cat : List CatalogItem) (id : String) (e : LayerEntry)
    (h : (cat.map (fun l =>
        (l.id, (⟨some false, some l.defaultOpacity⟩ : LayerEntry)))).lookup id = some e) :
    e.enabled = some false := by
  induction cat with
  | nil => cases h
  | cons c rest ih =>
    rw [List.map_cons, lookup_cons] at h
    by_cases hc : id = c.id
    · rw [if_pos (beq_iff_eq.mpr hc)] at h
      cases h
      rfl
    · rw [if_neg (by simp [hc])] at h
      exact ih h

theorem buildDefault_enabled (id : String) (e : LayerEntry)
    (h : buildDefaultLayers.lookup id = some e) : e.enabled = some false :=
  lookup_build_aux LAYER_CATALOG id e h

theorem keys_createInitial (viewId : String) (n : Bool) (vp : MapViewport) :
    (createInitialMapState viewId n vp).layers.map Prod.fst
      = LAYER_CATALOG.map CatalogItem.id := by
  rw [createInitialMapState]
  cases hv : MAP_VIEWS.find? (fun v => v.id == viewId) with
  | none => simpa using keys_buildDefaultLayers
  | some view =>
    simp only
    rw [keys_applyPresetOpacity, keys_applyPresetEnabled, keys_buildDefaultLayers]

theorem createInitial_enabled (viewId : String) (n : Bool) (vp : MapViewport)
    (id : String) (e : LayerEntry)
    (h : (createInitialMapState viewId n vp).layers.lookup id = some e) :
    e.enabled = if id ∈ presetEnabledLayersOf viewId then some true else some false := by
  simp only [createInitialMapState] at h
  rw [presetEnabledLayersOf]
  cases hv : MAP_VIEWS.find? (fun v => v.id == viewId) with
  | none =>
    rw [hv] at h
    have h' : buildDefaultLayers.lookup id = some e := h
    show e.enabled = if id ∈ ([] : List String) then some true else some false
    rw [if_neg (List.not_mem_nil id)]
    exact buildDefault_enabled id e h'
  | some view =>
    rw [hv] at h
    have h' : (applyPresetOpacity
        (applyPresetEnabled buildDefaultLayers view.presetEnabledLayers)
        view.presetLayerOpacity).lookup id = some e := h
    show e.enabled = if id ∈ view.presetEnabledLayers then some true else some false
    have hpp := enabled_applyPresetOpacity
      (applyPresetEnabled buildDefaultLayers view.presetEnabledLayers)
      view.presetLayerOpacity id
    rw [h', lookup_applyPresetEnabled] at hpp
    cases hb : buildDefaultLayers.lookup id with
    | none =>
      rw [hb] at hpp
      simp at hpp
    | some e0 =>
      rw [hb] at hpp
      simp only [Option.map_some'] at hpp
      have he0 := buildDefault_enabled id e0 hb
      by_cases hm : id ∈ view.presetEnabledLayers
      · rw [if_pos hm] at hpp ⊢
        exact Option.some.inj hpp
      · rw [if_neg hm] at hpp ⊢
        rw [← he0]
        exact Option.some.inj hpp

/-! ## Reducer claim theorems -/

/-- C1 counterexample: dispatching SetLayerOpacity for an id absent from the
layers map creates a new key holding only the opacity field, so the layers
map is not unchanged. -/
theorem set_layer_absent_cex :
    s0W.layers.lookup "nonexistent-id" = none ∧
    (mapReducer s0W (.setLayerOpacity "nonexistent-id" q0_5)).layers
      ≠ s0W.layers ∧
    (mapReducer s0W (.setLayerOpacity "nonexistent-id" q0_5)).layers.lookup
        "nonexistent-id" = some ⟨none, some q0_5⟩ := by
  refine ⟨by decide, by decide, by decide⟩

/-- C1 amended: for an id absent from the layers map, SetLayerOpacity
appends a new entry holding only the clamped opacity, and SetLayerEnabled
appends a new entry holding only the enabled flag; the rest of the map is
unchanged (a present id is updated in place, but an absent id does create a
key, contrary to the claim). -/
theorem set_layer_absent (s : MapRuntimeState) (id : String) (o : ℚ) (b : Bool)
    (h : s.layers.lookup id = none) :
    (mapReducer s (.setLayerOpacity id o)).layers
      = s.layers ++ [(id, ⟨none, some (clamp01 o)⟩)] ∧
    (mapReducer s (.setLayerEnabled id b)).layers
      = s.layers ++ [(id, ⟨some b, none⟩)] := by
  constructor
  · show setKey s.layers id _ = _
    rw [h]
    exact setKey_of_absent _ _ _ h
  · show setKey s.layers id _ = _
    rw [h]
    exact setKey_of_absent _ _ _ h

/-- Witness for C1's amended theorem at the initial radar-view state and the
id "nonexistent-id". -/
theorem set_layer_absent_witness :
    (mapReducer s0W (.setLayerOpacity "nonexistent-id" q0_5)).layers
      = s0W.layers ++ [("nonexistent-id", ⟨none, some (clamp01 q0_5)⟩)] ∧
    (mapReducer s0W (.setLayerEnabled "nonexistent-id" true)).layers
      = s0W.layers ++ [("nonexistent-id", ⟨some true, none⟩)] :=
  set_layer_absent s0W "nonexistent-id" q0_5 true (by decide)

/-- C10: SetView rebuilds every catalog layer's enabled flag from the target
view's preset: after SetView(v), a layer id is enabled exactly when it is
listed in v's presetEnabledLayers, regardless of the prior state — so a
user-enabled layer not in the new preset is disabled, and only opacity,
never the enabled flag, survives the switch. -/
theorem setView_enabled (s : MapRuntimeState) (v id : String)
    (hid : id ∈ LAYER_CATALOG.map CatalogItem.id) :
    ((mapReducer s (.setView v)).layers.lookup id).map LayerEntry.enabled
      = some (if id ∈ presetEnabledLayersOf v then some true else some false) := by
  show ((restoreOpacities (createInitialMapState v s.nerdy s.viewport).layers
      s.layers).lookup id).map LayerEntry.enabled = _
  rw [enabled_restoreOpacities]
  have hsome : ((createInitialMapState v s.nerdy s.viewport).layers.lookup id).isSome
      = true := by
    rw [lookup_isSome_iff, keys_createInitial]
    exact hid
  obtain ⟨e, he⟩ := Option.isSome_iff_exists.mp hsome
  rw [he, Option.map_some', createInitial_enabled v s.nerdy s.viewport id e he]

/-- Witness for C10: a layer enabled by hand under the radar view is
disabled by switching to the storm view, whose preset does not list it. -/
theorem setView_enabled_witness :
    ((mapReducer (mapReducer s0W (.setLayerEnabled "wildfire.smoke" true))
        (.setView "storm")).layers.lookup "wildfire.smoke").map LayerEntry.enabled
      = some (if "wildfire.smoke" ∈ presetEnabledLayersOf "storm" then some true
          else some false) :=
  setView_enabled (mapReducer s0W (.setLayerEnabled "wildfire.smoke" true))
    "storm" "wildfire.smoke" (by decide)

/-- C9: a per-layer opacity customization survives SetView(b) followed by
SetView(a): the layer ends with its customized opacity, not the catalog or
preset default, and the radar timeline sub-state is carried over unchanged
by each SetView transition. -/
theorem setView_opacity_roundtrip (s : MapRuntimeState) (a b id : String)
    (e : LayerEntry) (hnd : (s.layers.map Prod.fst).Nodup)
    (he : s.layers.lookup id = some e)
    (hid : id ∈ LAYER_CATALOG.map CatalogItem.id) :
    ((mapReducer (mapReducer s (.setView b)) (.setView a)).layers.lookup id).map
        LayerEntry.opacity = some e.opacity ∧
    (mapReducer s (.setView b)).radarTime = s.radarTime ∧
    (mapReducer (mapReducer s (.setView b)) (.setView a)).radarTime = s.radarTime := by
  have hsome1 : ((createInitialMapState b s.nerdy s.viewport).layers.lookup id).isSome
      = true := by
    rw [lookup_isSome_iff, keys_createInitial]
    exact hid
  obtain ⟨e0, he0⟩ := Option.isSome_iff_exists.mp hsome1
  have h1 : (mapReducer s (.setView b)).layers.lookup id
      = some { e0 with opacity := e.opacity } := by
    show (restoreOpacities (createInitialMapState b s.nerdy s.viewport).layers
      s.layers).lookup id = _
    rw [lookup_restoreOpacities_some _ _ _ _ hnd he, he0]
    rfl
  have hnd1 : ((mapReducer s (.setView b)).layers.map Prod.fst).Nodup := by
    show ((restoreOpacities (createInitialMapState b s.nerdy s.viewport).layers
      s.layers).map Prod.fst).Nodup
    rw [keys_restoreOpacities, keys_createInitial]
    decide
  have hsome2 : ((createInitialMapState a (mapReducer s (.setView b)).nerdy
      (mapReducer s (.setView b)).viewport).layers.lookup id).isSome = true := by
    rw [lookup_isSome_iff, keys_createInitial]
    exact hid
  obtain ⟨e1, he1⟩ := Option.isSome_iff_exists.mp hsome2
  have h2 : (mapReducer (mapReducer s (.setView b)) (.setView a)).layers.lookup id
      = some { e1 with opacity := e.opacity } := by
    show (restoreOpacities (createInitialMapState a (mapReducer s (.setView b)).nerdy
      (mapReducer s (.setView b)).viewport).layers
      (mapReducer s (.setView b)).layers).lookup id = _
    rw [lookup_restoreOpacities_some _ _ _ _ hnd1 h1, he1]
    rfl
  exact ⟨by rw [h2]; rfl, rfl, rfl⟩

/-- Witness for C9: opacity 3/10 set on the radar layer under the radar
view survives switching to the wildfire view and back. -/
theorem setView_opacity_roundtrip_witness :
    ((mapReducer (mapReducer (mapReducer s0W
          (.setLayerOpacity "radar.reflectivity" q0_3)) (.setView "wildfire"))
        (.setView "radar")).layers.lookup "radar.reflectivity").map
        LayerEntry.opacity
      = some (⟨some true, some q0_3⟩ : LayerEntry).opacity ∧
    (mapReducer (mapReducer s0W (.setLayerOpacity "radar.reflectivity" q0_3))
        (.setView "wildfire")).radarTime
      = (mapReducer s0W (.setLayerOpacity "radar.reflectivity" q0_3)).radarTime ∧
    (mapReducer (mapReducer (mapReducer s0W
          (.setLayerOpacity "radar.reflectivity" q0_3)) (.setView "wildfire"))
        (.setView "radar")).radarTime
      = (mapReducer s0W (.setLayerOpacity "radar.reflectivity" q0_3)).radarTime :=
  setView_opacity_roundtrip
    (mapReducer s0W (.setLayerOpacity "radar.reflectivity" q0_3))
    "radar" "wildfire" "radar.reflectivity" ⟨some true, some q0_3⟩
    (by decide) (by decide) (by decide)

end WeatherMvp
